import Mathlib

/-!
Verification of the sleeping-barber salon scheduling engine found in
`src/pages/Index.tsx` (first component variant, lines 57-807).

The engine state lives in React `useState` cells; each handler closes over the
state values of the render in which it was created.  This matters: inside one
synchronous call (e.g. `processTimeStep`) every read of `barbers`,
`waitingCustomers`, `currentCustomers`, `currentTime` sees the values from the
start of the call ("stale" reads), while writes go through setter calls.  A
plain `setX(value)` overwrites whatever was pending; a functional
`setX(prev => ...)` composes with pending writes.  The embedding below models
this faithfully: `addCustomerStep` takes both the stale view and the pending
state, and `processTimeStep` threads them exactly as the source does.

Simulated time values are JavaScript numbers; they are embedded as `ℚ`
(the source only adds, subtracts, divides and compares them).
-/

/-- `CustomerState` enum of the source (waiting / getting_haircut / served /
turned_away). -/
inductive CustomerState where
  | waiting
  | gettingHaircut
  | served
  | turnedAway
deriving DecidableEq, Repr

/-- `BarberState` enum of the source (sleeping / working). -/
inductive BarberState where
  | sleeping
  | working
deriving DecidableEq, Repr

/-- The `Customer` interface of the source.  Optional fields are `Option`. -/
structure Customer where
  id : Nat
  name : String
  state : CustomerState
  timeArrived : ℚ
  timeServed : Option ℚ := none
  timeLeft : Option ℚ := none
  servedBy : Option Nat := none
  waitingPosition : Option Nat := none
  serviceEndTime : Option ℚ := none
deriving DecidableEq, Repr

/-- The `Barber` interface of the source. -/
structure Barber where
  id : Nat
  state : BarberState
  servingCustomerId : Option Nat
  totalCustomersServed : Nat
  currentServiceStartTime : Option ℚ := none
  serviceEndTime : Option ℚ := none
deriving DecidableEq, Repr

/-- The engine snapshot: the React state cells `currentTime`, `nextCustomerId`,
`barbers`, `waitingCustomers`, `currentCustomers`, `servedCustomers`,
`turnedAwayCustomers` of the source component. -/
structure SalonState where
  currentTime : ℚ
  nextCustomerId : Nat
  barbers : List Barber
  waitingCustomers : List Customer
  currentCustomers : List Customer
  servedCustomers : List Customer
  turnedAwayCustomers : List Customer
deriving DecidableEq, Repr

/-- Whether a barber is sleeping, as a boolean (used for filters/counts). -/
def Barber.isSleeping (b : Barber) : Bool :=
  match b.state with
  | BarberState.sleeping => true
  | BarberState.working => false

/-- `barbers.findIndex(b => b.state === BarberState.SLEEPING)` (source line 205),
returning `none` for JavaScript's `-1`. -/
def findSleepingIdx : List Barber → Option Nat
  | [] => none
  | b :: bs =>
    if b.state = BarberState.sleeping then some 0
    else (findSleepingIdx bs).map (· + 1)

/-- Functional model of the in-place array update `arr[n] = f(arr[n])`. -/
def modifyAt : List α → Nat → (α → α) → List α
  | [], _, _ => []
  | a :: as, 0, f => f a :: as
  | a :: as, n + 1, f => a :: modifyAt as n f

/-- `list.map((c, idx) => ({...c, waitingPosition: idx}))` starting at index
`n` — the queue-position reindexing used at source lines 672-675. -/
def reindexFrom : Nat → List Customer → List Customer
  | _, [] => []
  | n, c :: cs => { c with waitingPosition := some n } :: reindexFrom (n + 1) cs

/-- `initializeSimulation` (source lines 115-141): all barbers sleeping,
sequential ids `1..numBarbers`, all collections empty, time `0`, id counter
`1`. -/
def initializeSimulation (numBarbers : Nat) : SalonState :=
  { currentTime := 0
    nextCustomerId := 1
    barbers := (List.range numBarbers).map fun i =>
      { id := i + 1, state := BarberState.sleeping, servingCustomerId := none
        totalCustomersServed := 0 }
    waitingCustomers := []
    currentCustomers := []
    servedCustomers := []
    turnedAwayCustomers := [] }

/-- `addCustomerWithName` (source lines 201-301) with React semantics made
explicit.  Decision inputs (`barbers`, `waitingCustomers`, `currentTime`,
`nextCustomerId`) are read from the closed-over `stale` state; setter writes
apply to the `pending` state: `setBarbers(updatedBarbers)` and
`setNextCustomerId(nextId + 1)` are plain overwrites computed from stale data,
while the three customer-list writes are functional (`prev => [...prev, c]`)
and hence append to `pending`.  When the function is invoked directly by a UI
command, `stale = pending`. -/
def addCustomerStep (numChairs : Nat) (serviceTime : ℚ) (nm : String)
    (stale pending : SalonState) : SalonState :=
  let nextId := stale.nextCustomerId
  match findSleepingIdx stale.barbers with
  | some i =>
    let serviceEnd := stale.currentTime + serviceTime
    let updatedBarbers := modifyAt stale.barbers i fun b =>
      { b with state := BarberState.working
               servingCustomerId := some nextId
               currentServiceStartTime := some stale.currentTime
               serviceEndTime := some serviceEnd }
    let newCustomer : Customer :=
      { id := nextId, name := nm, state := CustomerState.gettingHaircut
        timeArrived := stale.currentTime, timeServed := some stale.currentTime
        servedBy := some (i + 1), serviceEndTime := some serviceEnd }
    { pending with
        barbers := updatedBarbers
        currentCustomers := pending.currentCustomers ++ [newCustomer]
        nextCustomerId := nextId + 1 }
  | none =>
    if stale.waitingCustomers.length < numChairs then
      let newCustomer : Customer :=
        { id := nextId, name := nm, state := CustomerState.waiting
          timeArrived := stale.currentTime
          waitingPosition := some stale.waitingCustomers.length }
      { pending with
          waitingCustomers := pending.waitingCustomers ++ [newCustomer]
          nextCustomerId := nextId + 1 }
    else
      let newCustomer : Customer :=
        { id := nextId, name := nm, state := CustomerState.turnedAway
          timeArrived := stale.currentTime, timeLeft := some stale.currentTime }
      { pending with
          turnedAwayCustomers := pending.turnedAwayCustomers ++ [newCustomer]
          nextCustomerId := nextId + 1 }

/-- `addCustomerWithName` invoked as a standalone command (booking form or
random arrival outside a step): stale view and pending state coincide. -/
def addCustomerWithName (numChairs : Nat) (serviceTime : ℚ) (nm : String)
    (s : SalonState) : SalonState :=
  addCustomerStep numChairs serviceTime nm s s

/-- Accumulator of the completion `forEach` loop of `processTimeStep`:
the local `updatedBarbers`, `finishedCustomers`, `customersToRemove`,
`updatedCurrentCustomers` arrays plus the last pending
`setWaitingCustomers` write (if any dequeue happened). -/
structure StepAcc where
  updatedBarbers : List Barber
  finished : List Customer
  toRemove : List Nat
  updatedCurrent : List Customer
  queueWrite : Option (List Customer)
deriving DecidableEq, Repr

/-- One iteration of the `currentCustomers.forEach` loop at source lines
614-706.  `staleWaiting` is the closed-over `waitingCustomers` value; every
iteration reads it (both the emptiness test at line 642 and the head taken at
line 644), which is the faithful rendering of the source's stale-state reads.
The guard models `customer.state === GETTING_HAIRCUT && customer.serviceEndTime`
(JavaScript truthiness: `0` is falsy) `&& newTime >= customer.serviceEndTime`,
and `barberId` models `customer.servedBy! - 1`. -/
def completeOne (staleWaiting : List Customer) (serviceTime newTime : ℚ)
    (acc : StepAcc) (c : Customer) : StepAcc :=
  match c.serviceEndTime with
  | none => acc
  | some e =>
    if c.state = CustomerState.gettingHaircut ∧ e ≠ 0 ∧ e ≤ newTime then
      let barberId := c.servedBy.getD 1 - 1
      let finishedCustomer := { c with state := CustomerState.served, timeLeft := some e }
      let bs1 := modifyAt acc.updatedBarbers barberId fun b =>
        { b with totalCustomersServed := b.totalCustomersServed + 1
                 servingCustomerId := none }
      match staleWaiting with
      | nextCustomer :: rest =>
        let nextEnd := newTime + serviceTime
        let updatedNext := { nextCustomer with
          state := CustomerState.gettingHaircut
          timeServed := some newTime
          servedBy := some (barberId + 1)
          serviceEndTime := some nextEnd
          waitingPosition := none }
        { updatedBarbers := modifyAt bs1 barberId fun b =>
            { b with servingCustomerId := some nextCustomer.id
                     currentServiceStartTime := some newTime
                     serviceEndTime := some nextEnd
                     state := BarberState.working }
          finished := acc.finished ++ [finishedCustomer]
          toRemove := acc.toRemove ++ [c.id]
          updatedCurrent := acc.updatedCurrent ++ [updatedNext]
          queueWrite := some (reindexFrom 0 rest) }
      | [] =>
        { updatedBarbers := modifyAt bs1 barberId fun b =>
            { b with state := BarberState.sleeping
                     servingCustomerId := none
                     currentServiceStartTime := none
                     serviceEndTime := none }
          finished := acc.finished ++ [finishedCustomer]
          toRemove := acc.toRemove ++ [c.id]
          updatedCurrent := acc.updatedCurrent
          queueWrite := acc.queueWrite }
    else acc

/-- `processTimeStep` (source lines 601-726), for the running, unpaused case.
`newTime = currentTime + timeStep` with no sign check on `timeStep`.  The
completion loop runs over the stale `currentCustomers`; afterwards finished
customers are filtered out, the accumulated setter writes are applied, and —
if the Bernoulli arrival trial fired (`arrives`, injected as an input) —
`addCustomerWithName` runs with the stale closure view against the pending
state, exactly as `addRandomCustomer` does at source lines 722-725. -/
def processTimeStep (numChairs : Nat) (serviceTime : ℚ) (arrives : Bool) (nm : String)
    (timeStep : ℚ) (s : SalonState) : SalonState :=
  let newTime := s.currentTime + timeStep
  let acc0 : StepAcc := ⟨s.barbers, [], [], s.currentCustomers, none⟩
  let L := s.currentCustomers.foldl (completeOne s.waitingCustomers serviceTime newTime) acc0
  let remaining := L.updatedCurrent.filter fun c => ¬ L.toRemove.contains c.id
  let pending : SalonState :=
    { currentTime := newTime
      nextCustomerId := s.nextCustomerId
      barbers := L.updatedBarbers
      waitingCustomers := L.queueWrite.getD s.waitingCustomers
      currentCustomers := remaining
      servedCustomers := s.servedCustomers ++ L.finished
      turnedAwayCustomers := s.turnedAwayCustomers }
  if arrives then addCustomerStep numChairs serviceTime nm s pending else pending

/-- The sleeping-barber removal scan of `updateBarberCount` (source lines
752-761) expressed on the reversed list: walk from the array's end, removing
sleeping barbers until `k` have been removed or the list is exhausted,
skipping working barbers. -/
def goRemove : List Barber → Nat → List Barber
  | [], _ => []
  | b :: rest, k =>
    match k with
    | 0 => b :: rest
    | k + 1 => if b.isSleeping then goRemove rest k else b :: goRemove rest (k + 1)

/-- Removal of up to `k` sleeping barbers starting from the highest index
(source lines 756-761). -/
def removeSleepingFromEnd (bs : List Barber) (k : Nat) : List Barber :=
  (goRemove bs.reverse k).reverse

/-- `updatedBarbers.forEach((barber, index) => { barber.id = index + 1 })`
(source lines 764-766), starting from `n`. -/
def renumberFrom : Nat → List Barber → List Barber
  | _, [] => []
  | n, b :: bs => { b with id := n } :: renumberFrom (n + 1) bs

/-- Sequential renumbering to ids `1..M`. -/
def renumber (bs : List Barber) : List Barber := renumberFrom 1 bs

/-- `updateBarberCount` (source lines 736-772).  `newCount` is clamped to
`[1,5]`; on increase, fresh sleeping barbers are appended with ids continuing
from `barbers.length`; on decrease, sleeping barbers are removed from the end
(capped at what is available) and the remainder renumbered.  `numBarbers` is
the component's `numBarbers` state value. -/
def updateBarberCount (numBarbers newCount : Nat) (s : SalonState) : SalonState :=
  let n := if newCount < 1 then 1 else if 5 < newCount then 5 else newCount
  if numBarbers < n then
    { s with barbers := s.barbers ++
        (List.range (n - s.barbers.length)).map fun i =>
          { id := s.barbers.length + i + 1, state := BarberState.sleeping
            servingCustomerId := none, totalCustomersServed := 0 } }
  else if n < numBarbers then
    { s with barbers := renumber (removeSleepingFromEnd s.barbers (numBarbers - n)) }
  else s

/-- `updateChairCount` (source lines 774-800).  `newCount` is clamped to
`[1,10]`; if it falls below both the current chair count `numChairs` and the
queue length, the queue is truncated to its first `newCount` customers and the
tail is turned away with `timeLeft = currentTime`. -/
def updateChairCount (numChairs newCount : Nat) (s : SalonState) : SalonState :=
  let n := if newCount < 1 then 1 else if 10 < newCount then 10 else newCount
  if n < numChairs ∧ n < s.waitingCustomers.length then
    { s with
        waitingCustomers := s.waitingCustomers.take n
        turnedAwayCustomers := s.turnedAwayCustomers ++
          (s.waitingCustomers.drop n).map fun c =>
            { c with state := CustomerState.turnedAway
                     timeLeft := some s.currentTime } }
  else s

/-- JavaScript `Math.round` on the exact rationals: round half toward `+∞`. -/
def jsRound (x : ℚ) : ℤ := ⌊x + 1 / 2⌋

/-- JavaScript `x || y` for an optional number `x`: `y` when `x` is absent or
`0` (falsy), `x` otherwise. -/
def jsOr (x : Option ℚ) (y : ℚ) : ℚ :=
  match x with
  | none => y
  | some v => if v = 0 then y else v

/-- The `averageWaitTime` memo (source lines 90-103): `0` for no served
customers, otherwise the mean of `(timeServed || timeArrived) - timeArrived`
rounded to one decimal place. -/
def averageWaitTime (served : List Customer) : ℚ :=
  if served.length = 0 then 0
  else
    let totalWaitTime := served.foldl
      (fun total c => total + (jsOr c.timeServed c.timeArrived - c.timeArrived)) 0
    (jsRound (totalWaitTime / served.length * 10) : ℚ) / 10

/-- The spec's own statistic, written from its words: the arithmetic mean over
served customers of `serviceStartTime - arrivalTime` (for a customer with no
recorded start the wait contributes `0`, matching the spec's assumption that
served customers always have one).  Used only to compare `averageWaitTime`
against the spec. -/
def specAverageWait (served : List Customer) : ℚ :=
  (served.map fun c => c.timeServed.getD c.timeArrived - c.timeArrived).sum /
    served.length

/-! ### Conclusion predicates for the general theorems -/

/-- Postcondition of the admission rule (claim C2), split by the three cases
of `addCustomerWithName`: a sleeping barber exists (lowest-id one assigned,
zero wait), all busy with queue room (append to tail at position
`length - 1` of the new queue), or all busy with a full queue (turned away at
arrival time). -/
def admissionCases (numChairs : Nat) (serviceTime : ℚ) (nm : String)
    (s : SalonState) : Prop :=
  ((∃ b ∈ s.barbers, b.state = BarberState.sleeping) →
    ∃ i, ∃ hi : i < s.barbers.length,
      (s.barbers.get ⟨i, hi⟩).state = BarberState.sleeping ∧
      (∀ j, ∀ hj : j < s.barbers.length,
        (s.barbers.get ⟨j, hj⟩).state = BarberState.sleeping →
        (s.barbers.get ⟨i, hi⟩).id ≤ (s.barbers.get ⟨j, hj⟩).id) ∧
      addCustomerWithName numChairs serviceTime nm s =
        { s with
            barbers := modifyAt s.barbers i fun b =>
              { b with state := BarberState.working
                       servingCustomerId := some s.nextCustomerId
                       currentServiceStartTime := some s.currentTime
                       serviceEndTime := some (s.currentTime + serviceTime) }
            currentCustomers := s.currentCustomers ++
              [{ id := s.nextCustomerId, name := nm
                 state := CustomerState.gettingHaircut
                 timeArrived := s.currentTime, timeServed := some s.currentTime
                 servedBy := some (i + 1)
                 serviceEndTime := some (s.currentTime + serviceTime) }]
            nextCustomerId := s.nextCustomerId + 1 }) ∧
  ((∀ b ∈ s.barbers, b.state ≠ BarberState.sleeping) →
    s.waitingCustomers.length < numChairs →
    addCustomerWithName numChairs serviceTime nm s =
      { s with
          waitingCustomers := s.waitingCustomers ++
            [{ id := s.nextCustomerId, name := nm, state := CustomerState.waiting
               timeArrived := s.currentTime
               waitingPosition := some s.waitingCustomers.length }]
          nextCustomerId := s.nextCustomerId + 1 }) ∧
  ((∀ b ∈ s.barbers, b.state ≠ BarberState.sleeping) →
    ¬ s.waitingCustomers.length < numChairs →
    addCustomerWithName numChairs serviceTime nm s =
      { s with
          turnedAwayCustomers := s.turnedAwayCustomers ++
            [{ id := s.nextCustomerId, name := nm, state := CustomerState.turnedAway
               timeArrived := s.currentTime, timeLeft := some s.currentTime }]
          nextCustomerId := s.nextCustomerId + 1 })

/-- Postcondition of a chair-count decrease below the queue length (claim C6):
the first `newCount` queued customers stay, in order and still waiting at
positions `0..newCount-1`; the tail is appended to the rejected history with
`timeLeft = currentTime`; everything else is untouched. -/
def chairDecreaseSpec (numChairs newCount : Nat) (s : SalonState) : Prop :=
  (updateChairCount numChairs newCount s).waitingCustomers =
      s.waitingCustomers.take newCount ∧
  (updateChairCount numChairs newCount s).turnedAwayCustomers =
      s.turnedAwayCustomers ++ (s.waitingCustomers.drop newCount).map
        (fun c => { c with state := CustomerState.turnedAway
                           timeLeft := some s.currentTime }) ∧
  (updateChairCount numChairs newCount s).waitingCustomers.length = newCount ∧
  (∀ i, ∀ hi : i < (updateChairCount numChairs newCount s).waitingCustomers.length,
    ((updateChairCount numChairs newCount s).waitingCustomers.get
        ⟨i, hi⟩).waitingPosition = some i ∧
    ((updateChairCount numChairs newCount s).waitingCustomers.get
        ⟨i, hi⟩).state = CustomerState.waiting) ∧
  (updateChairCount numChairs newCount s).barbers = s.barbers ∧
  (updateChairCount numChairs newCount s).currentCustomers = s.currentCustomers ∧
  (updateChairCount numChairs newCount s).servedCustomers = s.servedCustomers ∧
  (updateChairCount numChairs newCount s).currentTime = s.currentTime ∧
  (updateChairCount numChairs newCount s).nextCustomerId = s.nextCustomerId

/-- Postcondition of a barber-count decrease (claim C7): the result is the
renumbering of `removeSleepingFromEnd`; working barbers are all kept (in
order); the kept sleeping barbers are exactly the lowest-indexed ones, i.e.
removal happened from the highest end; the number removed is the requested
decrease capped by the number of sleeping barbers; ids are contiguous from 1;
customer collections (in particular the served/rejected history and its
recorded `servedBy` values) are untouched. -/
def barberDecreaseSpec (numBarbers newCount : Nat) (s : SalonState) : Prop :=
  (updateBarberCount numBarbers newCount s).barbers =
      renumber (removeSleepingFromEnd s.barbers (numBarbers - newCount)) ∧
  (removeSleepingFromEnd s.barbers (numBarbers - newCount)).filter
      (fun b => ! b.isSleeping) = s.barbers.filter (fun b => ! b.isSleeping) ∧
  (removeSleepingFromEnd s.barbers (numBarbers - newCount)).filter Barber.isSleeping =
      (s.barbers.filter Barber.isSleeping).take
        (s.barbers.countP Barber.isSleeping - (numBarbers - newCount)) ∧
  (removeSleepingFromEnd s.barbers (numBarbers - newCount)).length =
      s.barbers.length -
        min (numBarbers - newCount) (s.barbers.countP Barber.isSleeping) ∧
  (updateBarberCount numBarbers newCount s).barbers.map (fun b => b.id) =
      List.range' 1 (updateBarberCount numBarbers newCount s).barbers.length ∧
  (updateBarberCount numBarbers newCount s).servedCustomers = s.servedCustomers ∧
  (updateBarberCount numBarbers newCount s).turnedAwayCustomers =
      s.turnedAwayCustomers ∧
  (updateBarberCount numBarbers newCount s).waitingCustomers = s.waitingCustomers ∧
  (updateBarberCount numBarbers newCount s).currentCustomers = s.currentCustomers

/-- Negation of the completion guard of `processTimeStep` at time `t`: the
customer is not a finishing in-service customer. -/
def noCompletionAt (t : ℚ) (c : Customer) : Prop :=
  ∀ e, c.serviceEndTime = some e →
    ¬ (c.state = CustomerState.gettingHaircut ∧ e ≠ 0 ∧ e ≤ t)

/-- What `processTimeStep` actually does on a negative delta with no due
completion and no arrival (amended claim C4): the step is processed normally,
so the only change is that `currentTime` moves backwards. -/
def negativeDeltaSpec (numChairs : Nat) (serviceTime : ℚ) (nm : String) (d : ℚ)
    (s : SalonState) : Prop :=
  processTimeStep numChairs serviceTime false nm d s =
      { s with currentTime := s.currentTime + d } ∧
  (processTimeStep numChairs serviceTime false nm d s).currentTime < s.currentTime

/-- Postcondition for claim C10: whenever a sleeping barber exists, a new
customer bypasses the waiting queue entirely — the queue is left unchanged and
the customer goes straight to `currentCustomers` with zero wait. -/
def bypassSpec (numChairs : Nat) (serviceTime : ℚ) (nm : String)
    (s : SalonState) : Prop :=
  (addCustomerWithName numChairs serviceTime nm s).waitingCustomers =
      s.waitingCustomers ∧
  ∃ c : Customer,
    (addCustomerWithName numChairs serviceTime nm s).currentCustomers =
        s.currentCustomers ++ [c] ∧
    c.state = CustomerState.gettingHaircut ∧
    c.id = s.nextCustomerId ∧
    c.timeArrived = s.currentTime ∧
    c.timeServed = some s.currentTime

/-! ### Concrete states used by the bug exhibits and witnesses -/

/-- Two barbers both due to finish at time 10, a single waiting customer
(id 3).  Used to exhibit the stale-queue double dequeue. -/
def sC1 : SalonState :=
  { currentTime := 0
    nextCustomerId := 4
    barbers :=
      [ { id := 1, state := BarberState.working, servingCustomerId := some 1
          totalCustomersServed := 0, currentServiceStartTime := some 0
          serviceEndTime := some 10 }
      , { id := 2, state := BarberState.working, servingCustomerId := some 2
          totalCustomersServed := 0, currentServiceStartTime := some 0
          serviceEndTime := some 10 } ]
    waitingCustomers :=
      [ { id := 3, name := "C", state := CustomerState.waiting, timeArrived := 5
          waitingPosition := some 0 } ]
    currentCustomers :=
      [ { id := 1, name := "A", state := CustomerState.gettingHaircut
          timeArrived := 0, timeServed := some 0, servedBy := some 1
          serviceEndTime := some 10 }
      , { id := 2, name := "B", state := CustomerState.gettingHaircut
          timeArrived := 0, timeServed := some 0, servedBy := some 2
          serviceEndTime := some 10 } ]
    servedCustomers := []
    turnedAwayCustomers := [] }

/-- An idle salon at time 5 (for the negative-delta exhibits). -/
def sC4 : SalonState :=
  { currentTime := 5, nextCustomerId := 1, barbers := []
    waitingCustomers := [], currentCustomers := [], servedCustomers := []
    turnedAwayCustomers := [] }

/-- One barber due to finish at time 10 with an empty queue; an arrival occurs
in the same step.  Used to exhibit the stale-barber admission read. -/
def sC5 : SalonState :=
  { currentTime := 0
    nextCustomerId := 2
    barbers :=
      [ { id := 1, state := BarberState.working, servingCustomerId := some 1
          totalCustomersServed := 0, currentServiceStartTime := some 0
          serviceEndTime := some 10 } ]
    waitingCustomers := []
    currentCustomers :=
      [ { id := 1, name := "A", state := CustomerState.gettingHaircut
          timeArrived := 0, timeServed := some 0, servedBy := some 1
          serviceEndTime := some 10 } ]
    servedCustomers := []
    turnedAwayCustomers := [] }

/-- One barber due to finish at time 10 with two queued customers; an arrival
occurs in the same step.  Used to exhibit broken queue positions. -/
def sC8 : SalonState :=
  { currentTime := 0
    nextCustomerId := 4
    barbers :=
      [ { id := 1, state := BarberState.working, servingCustomerId := some 1
          totalCustomersServed := 0, currentServiceStartTime := some 0
          serviceEndTime := some 10 } ]
    waitingCustomers :=
      [ { id := 2, name := "B", state := CustomerState.waiting, timeArrived := 1
          waitingPosition := some 0 }
      , { id := 3, name := "C", state := CustomerState.waiting, timeArrived := 2
          waitingPosition := some 1 } ]
    currentCustomers :=
      [ { id := 1, name := "A", state := CustomerState.gettingHaircut
          timeArrived := 0, timeServed := some 0, servedBy := some 1
          serviceEndTime := some 10 } ]
    servedCustomers := []
    turnedAwayCustomers := [] }

/-- Three served customers with waits 1, 1 and 0: their mean wait is `2/3`,
which is not representable at one decimal. -/
def servedEx : List Customer :=
  [ { id := 1, name := "P", state := CustomerState.served, timeArrived := 0
      timeServed := some 1, timeLeft := some 11, servedBy := some 1 }
  , { id := 2, name := "Q", state := CustomerState.served, timeArrived := 0
      timeServed := some 1, timeLeft := some 11, servedBy := some 1 }
  , { id := 3, name := "R", state := CustomerState.served, timeArrived := 3
      timeServed := some 3, timeLeft := some 13, servedBy := some 1 } ]

/-- Two sleeping barbers and an empty salon: the admission-determinism
scenario of the spec (at least two sleeping barbers, one arrival). -/
def sW2 : SalonState :=
  { currentTime := 0
    nextCustomerId := 1
    barbers :=
      [ { id := 1, state := BarberState.sleeping, servingCustomerId := none
          totalCustomersServed := 0 }
      , { id := 2, state := BarberState.sleeping, servingCustomerId := none
          totalCustomersServed := 0 } ]
    waitingCustomers := []
    currentCustomers := []
    servedCustomers := []
    turnedAwayCustomers := [] }

/-- A busy barber with two queued customers in two chairs (the spec's
Scenario D before `SetChairCount(1)`). -/
def sW6 : SalonState :=
  { currentTime := 7
    nextCustomerId := 4
    barbers :=
      [ { id := 1, state := BarberState.working, servingCustomerId := some 1
          totalCustomersServed := 0, currentServiceStartTime := some 0
          serviceEndTime := some 10 } ]
    waitingCustomers :=
      [ { id := 2, name := "B", state := CustomerState.waiting, timeArrived := 1
          waitingPosition := some 0 }
      , { id := 3, name := "C", state := CustomerState.waiting, timeArrived := 2
          waitingPosition := some 1 } ]
    currentCustomers :=
      [ { id := 1, name := "A", state := CustomerState.gettingHaircut
          timeArrived := 0, timeServed := some 0, servedBy := some 1
          serviceEndTime := some 10 } ]
    servedCustomers := []
    turnedAwayCustomers := [] }

/-- Three barbers, the middle one working, for the barber-shrink witness. -/
def sW7 : SalonState :=
  { currentTime := 4
    nextCustomerId := 2
    barbers :=
      [ { id := 1, state := BarberState.sleeping, servingCustomerId := none
          totalCustomersServed := 3 }
      , { id := 2, state := BarberState.working, servingCustomerId := some 1
          totalCustomersServed := 1, currentServiceStartTime := some 2
          serviceEndTime := some 12 }
      , { id := 3, state := BarberState.sleeping, servingCustomerId := none
          totalCustomersServed := 0 } ]
    waitingCustomers := []
    currentCustomers :=
      [ { id := 1, name := "A", state := CustomerState.gettingHaircut
          timeArrived := 2, timeServed := some 2, servedBy := some 2
          serviceEndTime := some 12 } ]
    servedCustomers := []
    turnedAwayCustomers := [] }

/-- A reachable state with a sleeping barber and a non-empty queue, built by
the engine's own operations: initialize one barber, admit two customers (the
second queues), then raise the barber count to two — the new barber sleeps
while the queue still holds customer 2. -/
def sW10 : SalonState :=
  updateBarberCount 1 2
    (addCustomerWithName 3 10 "B" (addCustomerWithName 3 10 "A"
      (initializeSimulation 1)))

/-! ### Helper lemmas -/

/-- `findSleepingIdx` returns an index of a sleeping barber that is minimal:
every smaller index holds a non-sleeping barber. -/
theorem findSleepingIdx_some_spec :
    ∀ (bs : List Barber) (i : Nat), findSleepingIdx bs = some i →
      ∃ hi : i < bs.length,
        (bs.get ⟨i, hi⟩).state = BarberState.sleeping ∧
        ∀ j, ∀ hj : j < bs.length, j < i →
          (bs.get ⟨j, hj⟩).state ≠ BarberState.sleeping := by
  intro bs
  induction bs with
  | nil => intro i h; simp [findSleepingIdx] at h
  | cons b bs ih =>
    intro i h
    by_cases hb : b.state = BarberState.sleeping
    · simp only [findSleepingIdx, if_pos hb, Option.some.injEq] at h
      subst h
      exact ⟨Nat.succ_pos _, hb, fun j hj hji => absurd hji (Nat.not_lt_zero j)⟩
    · simp only [findSleepingIdx, if_neg hb, Option.map_eq_some'] at h
      obtain ⟨i', hfind, rfl⟩ := h
      obtain ⟨hi', hsleep, hmin⟩ := ih i' hfind
      refine ⟨Nat.succ_lt_succ hi', hsleep, ?_⟩
      intro j hj hji
      match j with
      | 0 => exact hb
      | j + 1 => exact hmin j (Nat.lt_of_succ_lt_succ hj) (Nat.lt_of_succ_lt_succ hji)

/-- If `findSleepingIdx` finds nothing, no barber is sleeping. -/
theorem findSleepingIdx_none_spec :
    ∀ (bs : List Barber), findSleepingIdx bs = none →
      ∀ b ∈ bs, b.state ≠ BarberState.sleeping := by
  intro bs
  induction bs with
  | nil => intro _ b hb; cases hb
  | cons b bs ih =>
    intro h c hc
    by_cases hb : b.state = BarberState.sleeping
    · simp [findSleepingIdx, if_pos hb] at h
    · simp only [findSleepingIdx, if_neg hb, Option.map_eq_none'] at h
      rcases List.mem_cons.mp hc with rfl | hmem
      · exact hb
      · exact ih h c hmem

/-- If some barber sleeps, `findSleepingIdx` finds an index. -/
theorem findSleepingIdx_isSome_of (bs : List Barber)
    (h : ∃ b ∈ bs, b.state = BarberState.sleeping) :
    ∃ i, findSleepingIdx bs = some i := by
  cases hf : findSleepingIdx bs with
  | some i => exact ⟨i, rfl⟩
  | none =>
    obtain ⟨b, hb, hsleep⟩ := h
    exact absurd hsleep (findSleepingIdx_none_spec bs hf b hb)

/-- The length of a filter is the count of the predicate. -/
theorem filter_length_countP (p : α → Bool) (l : List α) :
    (l.filter p).length = l.countP p := by
  induction l with
  | nil => rfl
  | cons a l ih =>
    by_cases h : p a
    · simp [List.filter, h, List.countP_cons, ih]
    · simp [List.filter, h, List.countP_cons, ih]

/-- `goRemove` never removes a working barber: the non-sleeping sublist is
untouched. -/
theorem goRemove_filter_working :
    ∀ (l : List Barber) (k : Nat),
      (goRemove l k).filter (fun b => ! b.isSleeping) =
        l.filter (fun b => ! b.isSleeping) := by
  intro l
  induction l with
  | nil => intro k; rfl
  | cons b rest ih =>
    intro k
    match k with
    | 0 => rfl
    | k + 1 =>
      by_cases hb : b.isSleeping
      · simp [goRemove, hb, List.filter, ih]
      · simp only [goRemove, hb, Bool.false_eq_true, if_false]
        simp only [List.filter]
        simp [hb, ih]

/-- `goRemove` drops exactly the first `min k (count)` sleeping barbers of the
list it scans. -/
theorem goRemove_filter_sleeping :
    ∀ (l : List Barber) (k : Nat),
      (goRemove l k).filter Barber.isSleeping =
        (l.filter Barber.isSleeping).drop
          (min k (l.countP Barber.isSleeping)) := by
  intro l
  induction l with
  | nil => intro k; simp [goRemove]
  | cons b rest ih =>
    intro k
    match k with
    | 0 => simp [goRemove]
    | k + 1 =>
      by_cases hb : b.isSleeping
      · simp only [goRemove, hb, if_true]
        rw [ih k]
        simp [List.filter, hb, List.countP_cons, Nat.succ_min_succ]
      · simp only [goRemove, hb, Bool.false_eq_true, if_false]
        simp only [List.filter, List.countP_cons, hb]
        rw [ih (k + 1)]
        simp

/-- `goRemove` shortens the list by exactly `min k (count of sleeping)`. -/
theorem goRemove_length :
    ∀ (l : List Barber) (k : Nat),
      (goRemove l k).length =
        l.length - min k (l.countP Barber.isSleeping) := by
  intro l
  induction l with
  | nil => intro k; simp [goRemove]
  | cons b rest ih =>
    intro k
    match k with
    | 0 => simp [goRemove]
    | k + 1 =>
      have hcle := List.countP_le_length (p := Barber.isSleeping) (l := rest)
      by_cases hb : b.isSleeping
      · simp only [goRemove, hb, if_true]
        rw [ih k]
        simp only [List.length_cons, List.countP_cons, hb, if_true]
        omega
      · simp only [goRemove, hb, Bool.false_eq_true, if_false]
        simp only [List.length_cons, List.countP_cons, hb, Bool.false_eq_true,
          if_false]
        rw [ih (k + 1)]
        omega

/-- Removal from the end keeps the working barbers, in their original order. -/
theorem removeSleepingFromEnd_filter_working (bs : List Barber) (k : Nat) :
    (removeSleepingFromEnd bs k).filter (fun b => ! b.isSleeping) =
      bs.filter (fun b => ! b.isSleeping) := by
  unfold removeSleepingFromEnd
  rw [List.filter_reverse, goRemove_filter_working, List.filter_reverse,
    List.reverse_reverse]

/-- Removal from the end keeps exactly the first
`count - k` sleeping barbers (in order): the removed sleeping barbers are the
highest-indexed ones. -/
theorem removeSleepingFromEnd_filter_sleeping (bs : List Barber) (k : Nat) :
    (removeSleepingFromEnd bs k).filter Barber.isSleeping =
      (bs.filter Barber.isSleeping).take
        (bs.countP Barber.isSleeping - k) := by
  unfold removeSleepingFromEnd
  rw [List.filter_reverse, goRemove_filter_sleeping, List.filter_reverse,
    List.countP_reverse]
  rw [List.drop_reverse, List.reverse_reverse]
  have h1 : (bs.filter Barber.isSleeping).length = bs.countP Barber.isSleeping :=
    filter_length_countP _ _
  rw [h1]
  have h2 : bs.countP Barber.isSleeping - min k (bs.countP Barber.isSleeping) =
      bs.countP Barber.isSleeping - k := by omega
  rw [h2]

/-- Removal from the end removes exactly `min k (number of sleeping barbers)`
elements: an unsatisfiable remainder is silently capped. -/
theorem removeSleepingFromEnd_length (bs : List Barber) (k : Nat) :
    (removeSleepingFromEnd bs k).length =
      bs.length - min k (bs.countP Barber.isSleeping) := by
  unfold removeSleepingFromEnd
  rw [List.length_reverse, goRemove_length, List.length_reverse,
    List.countP_reverse]

/-- `renumberFrom` preserves length. -/
theorem renumberFrom_length :
    ∀ (n : Nat) (bs : List Barber), (renumberFrom n bs).length = bs.length := by
  intro n bs
  induction bs generalizing n with
  | nil => rfl
  | cons b bs ih => simp [renumberFrom, ih]

/-- The renumbered ids are the consecutive block starting at `n`. -/
theorem renumberFrom_map_id :
    ∀ (bs : List Barber) (n : Nat),
      (renumberFrom n bs).map (fun b => b.id) = List.range' n bs.length := by
  intro bs
  induction bs with
  | nil => intro n; rfl
  | cons b bs ih =>
    intro n
    simp only [renumberFrom, List.map_cons, List.length_cons, List.range'_succ]
    rw [ih (n + 1)]

/-- If no current customer satisfies the completion guard at `t`, the
completion loop leaves its accumulator unchanged. -/
theorem foldl_completeOne_noop (w : List Customer) (st t : ℚ)
    (l : List Customer) (acc : StepAcc)
    (h : ∀ c ∈ l, noCompletionAt t c) :
    l.foldl (completeOne w st t) acc = acc := by
  induction l generalizing acc with
  | nil => rfl
  | cons c l ih =>
    have hc : completeOne w st t acc c = acc := by
      unfold completeOne
      cases hce : c.serviceEndTime with
      | none => rfl
      | some e =>
        have hng := h c (List.mem_cons_self c l) e hce
        simp only [if_neg hng]
    rw [List.foldl_cons, hc]
    exact ih _ (fun d hd => h d (List.mem_cons_of_mem _ hd))

/-! ### Claim theorems -/

/-- Claim C1 (refuted on the code — bug exhibit).  In state `sC1` both
in-service customers have `serviceEndTime = 10 <= newTime`; the spec's steps
2-3 demand that the first freed barber dequeue waiting customer 3 and that the
second freed barber, facing the then-empty queue, go to sleep with cleared
service fields.  The code instead reads the stale queue in every loop
iteration: both barbers are assigned customer 3 and both stay `working` —
while the served-side bookkeeping (exact `departureTime = serviceEndTime`,
`totalServed` increments) is as claimed. -/
theorem processTimeStep_double_dequeue :
    ((processTimeStep 3 10 false "X" 10 sC1).barbers.map
        fun b => (b.state, b.servingCustomerId, b.totalCustomersServed)) =
      [(BarberState.working, some 3, 1), (BarberState.working, some 3, 1)] ∧
    (processTimeStep 3 10 false "X" 10 sC1).waitingCustomers = [] ∧
    ((processTimeStep 3 10 false "X" 10 sC1).currentCustomers.map
        fun c => c.id) = [3, 3] ∧
    ((processTimeStep 3 10 false "X" 10 sC1).servedCustomers.map
        fun c => (c.id, c.state, c.timeLeft)) =
      [(1, CustomerState.served, some 10), (2, CustomerState.served, some 10)] := by
  norm_num [processTimeStep, completeOne, sC1, modifyAt, reindexFrom,
    List.foldl, List.filter]

/-- Claim C3 (refuted on the code — bug exhibit).  From state `sC1`, after one
step the single waiting customer 3 is simultaneously assigned to both barbers
(`servingCustomerId = 3` twice) and occurs twice in the in-service collection:
a waiting customer is assigned to two barbers at once, contradicting the
exclusive-ownership invariant. -/
theorem processTimeStep_double_assignment :
    ((processTimeStep 3 10 false "X" 10 sC1).barbers.map
        fun b => b.servingCustomerId) = [some 3, some 3] ∧
    ((processTimeStep 3 10 false "X" 10 sC1).currentCustomers.filter
        fun c => c.id == 3).length = 2 := by
  norm_num [processTimeStep, completeOne, sC1, modifyAt, reindexFrom,
    List.foldl, List.filter]

/-- Constructor disequality used to reduce `findSleepingIdx` on concrete
states inside larger evaluations. -/
theorem working_ne_sleeping_eq_false :
    (BarberState.working = BarberState.sleeping) = False := by simp

/-- Claim C5 (refuted on the code — bug exhibit).  In state `sC5` the only
customer completes exactly at `newTime = 10` and the queue is empty, so the
barber is freed; the same-step arrival should therefore be admitted straight
to the freed barber.  Instead the admission code reads the stale pre-step
barber array (still `working`), so the arrival is queued while the freed
barber sleeps. -/
theorem processTimeStep_arrival_sees_stale_barbers :
    ((processTimeStep 3 10 true "N" 10 sC5).barbers.map fun b => b.state) =
      [BarberState.sleeping] ∧
    ((processTimeStep 3 10 true "N" 10 sC5).waitingCustomers.map
        fun c => (c.id, c.state)) = [(2, CustomerState.waiting)] ∧
    (processTimeStep 3 10 true "N" 10 sC5).currentCustomers = [] := by
  norm_num [processTimeStep, completeOne, addCustomerStep, findSleepingIdx,
    working_ne_sleeping_eq_false, sC5, modifyAt, reindexFrom, List.foldl,
    List.filter]

/-- Claim C8 (refuted on the code — bug exhibit).  From state `sC8` (queue
`[2, 3]`, capacity 3), the step completes customer 1, promotes customer 2 and
reindexes the queue to `[3]` with position 0; the same-step arrival then reads
the stale queue length 2 and appends with `waitingPosition = 2`, leaving the
reachable queue `[3, 4]` with positions `[0, 2]` instead of `0..length-1`. -/
theorem processTimeStep_breaks_queue_positions :
    ((processTimeStep 3 10 true "D" 10 sC8).waitingCustomers.map
        fun c => (c.id, c.waitingPosition)) = [(3, some 0), (4, some 2)] ∧
    (processTimeStep 3 10 true "D" 10 sC8).waitingCustomers.length = 2 := by
  norm_num [processTimeStep, completeOne, addCustomerStep, findSleepingIdx,
    working_ne_sleeping_eq_false, sC8, modifyAt, reindexFrom, List.foldl,
    List.filter]

/-- Claim C4 (counterexample).  `processTimeStep` contains no sign check: a
call with `deltaTime = -3` on the idle state `sC4` is not rejected and the
snapshot is mutated — `currentTime` drops from 5 to 2. -/
theorem processTimeStep_negative_delta_mutates :
    (processTimeStep 3 10 false "X" (-3) sC4).currentTime = 2 ∧
    sC4.currentTime = 5 ∧
    processTimeStep 3 10 false "X" (-3) sC4 ≠ sC4 := by
  refine ⟨?_, ?_, ?_⟩
  · norm_num [processTimeStep, sC4, List.foldl, List.filter]
  · norm_num [sC4]
  · intro h
    have h2 : (processTimeStep 3 10 false "X" (-3) sC4).currentTime =
        sC4.currentTime := by rw [h]
    rw [show (processTimeStep 3 10 false "X" (-3) sC4).currentTime = 2 by
      norm_num [processTimeStep, sC4, List.foldl, List.filter]] at h2
    norm_num [sC4] at h2

/-- Claim C2 (confirmed).  For every state whose barber ids are the sequential
`index + 1` (as the engine maintains them), `addCustomerWithName` follows the
admission rule: if any barber sleeps, the sleeping barber with the lowest id
is assigned and the customer goes straight in service with
`serviceStartTime = arrivalTime`; otherwise, with queue room
(`length < capacity`) the customer is appended to the tail as `waiting` with
position `length` of the old queue (= new length - 1); otherwise the customer
is immediately turned away with `timeLeft = arrivalTime`. -/
theorem addCustomerWithName_admission (numChairs : Nat) (serviceTime : ℚ)
    (nm : String) (s : SalonState)
    (hid : ∀ i, ∀ hi : i < s.barbers.length, (s.barbers.get ⟨i, hi⟩).id = i + 1) :
    admissionCases numChairs serviceTime nm s := by
  refine ⟨?_, ?_, ?_⟩
  · intro hex
    obtain ⟨i, hfind⟩ := findSleepingIdx_isSome_of _ hex
    obtain ⟨hi, hsleep, hmin⟩ := findSleepingIdx_some_spec _ _ hfind
    refine ⟨i, hi, hsleep, ?_, ?_⟩
    · intro j hj hjs
      have hij : i ≤ j := by
        by_contra hlt
        push_neg at hlt
        exact hmin j hj hlt hjs
      rw [hid i hi, hid j hj]
      omega
    · unfold addCustomerWithName addCustomerStep
      rw [hfind]
  · intro hall hlen
    have hfind : findSleepingIdx s.barbers = none := by
      cases hf : findSleepingIdx s.barbers with
      | none => rfl
      | some i =>
        obtain ⟨hi, hsleep, _⟩ := findSleepingIdx_some_spec _ _ hf
        exact absurd hsleep (hall _ (List.get_mem s.barbers i hi))
    unfold addCustomerWithName addCustomerStep
    rw [hfind]
    simp only [if_pos hlen]
  · intro hall hlen
    have hfind : findSleepingIdx s.barbers = none := by
      cases hf : findSleepingIdx s.barbers with
      | none => rfl
      | some i =>
        obtain ⟨hi, hsleep, _⟩ := findSleepingIdx_some_spec _ _ hf
        exact absurd hsleep (hall _ (List.get_mem s.barbers i hi))
    unfold addCustomerWithName addCustomerStep
    rw [hfind]
    simp only [if_neg hlen]

/-- Witness for claim C2 at the two-sleeping-barbers state `sW2`. -/
theorem addCustomerWithName_admission_witness :
    (∀ i, ∀ hi : i < sW2.barbers.length, (sW2.barbers.get ⟨i, hi⟩).id = i + 1) ∧
    admissionCases 3 10 "X" sW2 :=
  ⟨by decide, addCustomerWithName_admission 3 10 "X" sW2 (by decide)⟩

/-- Claim C4 (amended).  A negative `deltaTime` is not rejected —
`processTimeStep` has no `InvalidArgument` path at all.  The step runs like
any other against `newTime = currentTime + deltaTime`: when nothing satisfies
the completion guard at `newTime` and no arrival fires, the snapshot changes
exactly by moving `currentTime` backwards. -/
theorem processTimeStep_negative_delta_behaviour (numChairs : Nat)
    (serviceTime : ℚ) (nm : String) (d : ℚ) (s : SalonState) (hd : d < 0)
    (h : ∀ c ∈ s.currentCustomers, noCompletionAt (s.currentTime + d) c) :
    negativeDeltaSpec numChairs serviceTime nm d s := by
  have hfold := foldl_completeOne_noop s.waitingCustomers serviceTime
    (s.currentTime + d) s.currentCustomers
    ⟨s.barbers, [], [], s.currentCustomers, none⟩ h
  constructor
  · show processTimeStep numChairs serviceTime false nm d s = _
    simp only [processTimeStep, hfold]
    simp [List.filter]
  · show (processTimeStep numChairs serviceTime false nm d s).currentTime < _
    simp only [processTimeStep, hfold]
    simp only [Bool.false_eq_true, if_false]
    linarith

/-- Witness for the amended claim C4 at the idle state `sC4` with delta -3. -/
theorem processTimeStep_negative_delta_behaviour_witness :
    ((-3 : ℚ) < 0 ∧
      ∀ c ∈ sC4.currentCustomers, noCompletionAt (sC4.currentTime + -3) c) ∧
    negativeDeltaSpec 3 10 "X" (-3) sC4 :=
  ⟨⟨by norm_num, by intro c hc; cases hc⟩,
    processTimeStep_negative_delta_behaviour 3 10 "X" (-3) sC4 (by norm_num)
      (by intro c hc; cases hc)⟩

/-- Claim C6 (confirmed).  For a chair-count decrease to a valid `newCount`
below the current queue length (in a state satisfying the queue invariants:
length within the old capacity, positions `0..len-1`, all queued customers
`waiting`), exactly the tail beyond `newCount` is evicted into the rejected
history with `timeLeft = currentTime`; the earlier-arrived customers remain
waiting, in order, at positions `0..newCount-1`; the final queue length equals
`newCount`; nothing else changes. -/
theorem updateChairCount_decrease (numChairs newCount : Nat) (s : SalonState)
    (h1 : 1 ≤ newCount) (h2 : newCount ≤ 10)
    (h3 : newCount < s.waitingCustomers.length)
    (h4 : s.waitingCustomers.length ≤ numChairs)
    (h5 : ∀ i, ∀ hi : i < s.waitingCustomers.length,
      (s.waitingCustomers.get ⟨i, hi⟩).waitingPosition = some i)
    (h6 : ∀ c ∈ s.waitingCustomers, c.state = CustomerState.waiting) :
    chairDecreaseSpec numChairs newCount s := by
  have hclamp : (if newCount < 1 then 1 else if 10 < newCount then 10
      else newCount) = newCount := by
    rw [if_neg (by omega), if_neg (by omega)]
  have hcond : (if newCount < 1 then 1 else if 10 < newCount then 10
      else newCount) < numChairs ∧
      (if newCount < 1 then 1 else if 10 < newCount then 10
        else newCount) < s.waitingCustomers.length := by
    rw [hclamp]
    omega
  have hres : updateChairCount numChairs newCount s =
      { s with
          waitingCustomers := s.waitingCustomers.take newCount
          turnedAwayCustomers := s.turnedAwayCustomers ++
            (s.waitingCustomers.drop newCount).map fun c =>
              { c with state := CustomerState.turnedAway
                       timeLeft := some s.currentTime } } := by
    unfold updateChairCount
    rw [if_pos hcond, hclamp]
  have hlen : (s.waitingCustomers.take newCount).length = newCount := by
    rw [List.length_take]
    omega
  refine ⟨by rw [hres], by rw [hres], by rw [hres]; exact hlen, ?_,
    by rw [hres], by rw [hres], by rw [hres], by rw [hres], by rw [hres]⟩
  intro i hi
  have hilt : i < s.waitingCustomers.length := by
    have hi2 := hi
    rw [hres] at hi2
    simp only [hlen] at hi2
    omega
  simp only [hres, List.get_eq_getElem, List.getElem_take]
  have h5g : s.waitingCustomers[i].waitingPosition = some i := by
    have := h5 i hilt
    simpa [List.get_eq_getElem] using this
  have h6g : s.waitingCustomers[i].state = CustomerState.waiting :=
    h6 _ (List.getElem_mem hilt)
  exact ⟨h5g, h6g⟩

/-- Witness for claim C6: the spec's Scenario D (`sW6`, two queued customers,
two chairs) with a decrease to one chair. -/
theorem updateChairCount_decrease_witness :
    (1 ≤ 1 ∧ 1 ≤ 10 ∧ 1 < sW6.waitingCustomers.length ∧
      sW6.waitingCustomers.length ≤ 2 ∧
      (∀ i, ∀ hi : i < sW6.waitingCustomers.length,
        (sW6.waitingCustomers.get ⟨i, hi⟩).waitingPosition = some i) ∧
      (∀ c ∈ sW6.waitingCustomers, c.state = CustomerState.waiting)) ∧
    chairDecreaseSpec 2 1 sW6 :=
  ⟨⟨by decide, by decide, by decide, by decide, by decide, by decide⟩,
    updateChairCount_decrease 2 1 sW6 (by decide) (by decide) (by decide)
      (by decide) (by decide) (by decide)⟩

/-- Claim C7 (confirmed).  For a barber-count decrease to a valid `newCount`:
the result is `removeSleepingFromEnd` followed by renumbering; no working
barber is removed (the non-sleeping sublist is preserved in order); the
removed barbers are sleeping ones taken from the highest indices (the kept
sleeping barbers are exactly the first `count - k`); the number removed is the
requested decrease capped by the number of sleeping barbers; the surviving
barbers carry contiguous ids `1..M`; and the customer collections — in
particular the `servedBy` ids frozen on the served/rejected history — are
untouched. -/
theorem updateBarberCount_decrease (numBarbers newCount : Nat) (s : SalonState)
    (h1 : 1 ≤ newCount) (h2 : newCount ≤ 5) (h3 : newCount < numBarbers) :
    barberDecreaseSpec numBarbers newCount s := by
  have hclamp : (if newCount < 1 then 1 else if 5 < newCount then 5
      else newCount) = newCount := by
    rw [if_neg (by omega), if_neg (by omega)]
  have hres : updateBarberCount numBarbers newCount s =
      { s with barbers :=
          renumber (removeSleepingFromEnd s.barbers (numBarbers - newCount)) } := by
    simp only [updateBarberCount, hclamp]
    rw [if_neg (by omega), if_pos h3]
  refine ⟨by rw [hres], removeSleepingFromEnd_filter_working _ _,
    removeSleepingFromEnd_filter_sleeping _ _, removeSleepingFromEnd_length _ _,
    ?_, by rw [hres], by rw [hres], by rw [hres], by rw [hres]⟩
  rw [hres]
  show (renumberFrom 1 _).map (fun b => b.id) =
    List.range' 1 (renumberFrom 1 _).length
  rw [renumberFrom_map_id, renumberFrom_length]

/-- Witness for claim C7 at `sW7` (three barbers, the middle one working),
shrinking from 3 to 1: both sleeping barbers go, the working one survives. -/
theorem updateBarberCount_decrease_witness :
    (1 ≤ 1 ∧ 1 ≤ 5 ∧ 1 < 3) ∧ barberDecreaseSpec 3 1 sW7 :=
  ⟨⟨by decide, by decide, by decide⟩,
    updateBarberCount_decrease 3 1 sW7 (by decide) (by decide) (by decide)⟩

/-- The wait-time fold of `averageWaitTime` equals the spec's summed waits,
provided no customer carries the JavaScript-falsy start time `0` together
with a nonzero arrival time. -/
theorem wait_foldl_sum (l : List Customer)
    (h : ∀ c ∈ l, c.timeServed = some 0 → c.timeArrived = 0) :
    ∀ a : ℚ, l.foldl (fun total c => total +
        (jsOr c.timeServed c.timeArrived - c.timeArrived)) a =
      a + (l.map fun c => c.timeServed.getD c.timeArrived - c.timeArrived).sum := by
  induction l with
  | nil => intro a; simp
  | cons c l ih =>
    intro a
    have hc : jsOr c.timeServed c.timeArrived = c.timeServed.getD c.timeArrived := by
      cases hts : c.timeServed with
      | none => rfl
      | some v =>
        by_cases hv : v = 0
        · subst hv
          have hta := h c (List.mem_cons_self c l) hts
          simp [jsOr, hta]
        · simp [jsOr, hv]
    simp only [List.foldl_cons, List.map_cons, List.sum_cons]
    rw [hc, ih (fun d hd => h d (List.mem_cons_of_mem _ hd))]
    ring

/-- Claim C9 (counterexample).  With served waits 1, 1, 0 the arithmetic mean
is `2/3`, but `averageWaitTime` — which rounds to one decimal — returns
`7/10`: the statistic does not equal the exact mean. -/
theorem averageWaitTime_not_exact_mean :
    averageWaitTime servedEx = 7 / 10 ∧
    specAverageWait servedEx = 2 / 3 ∧
    ((7 : ℚ) / 10) ≠ 2 / 3 := by
  refine ⟨?_, ?_, by norm_num⟩
  · norm_num [averageWaitTime, servedEx, jsOr, jsRound, List.foldl]
  · norm_num [specAverageWait, servedEx]

/-- Claim C9 (amended).  For every served list (whose entries do not combine
the falsy start time `0` with a nonzero arrival — true of all reachable
histories), the derived statistic is the spec's arithmetic mean multiplied by
10, rounded half-up to an integer, then divided by 10 — i.e. the mean rounded
to one decimal place — and `0` for an empty list. -/
theorem averageWaitTime_eq_rounded_mean (served : List Customer)
    (h : ∀ c ∈ served, c.timeServed = some 0 → c.timeArrived = 0) :
    averageWaitTime served =
      if served.length = 0 then 0
      else (jsRound (specAverageWait served * 10) : ℚ) / 10 := by
  by_cases hlen : served.length = 0
  · simp [averageWaitTime, hlen]
  · have hfold := wait_foldl_sum served h 0
    simp only [averageWaitTime, specAverageWait, if_neg hlen, hfold, zero_add]

/-- Witness for the amended claim C9 at the three-customer history
`servedEx`. -/
theorem averageWaitTime_eq_rounded_mean_witness :
    (∀ c ∈ servedEx, c.timeServed = some 0 → c.timeArrived = 0) ∧
    averageWaitTime servedEx =
      if servedEx.length = 0 then 0
      else (jsRound (specAverageWait servedEx * 10) : ℚ) / 10 :=
  ⟨by norm_num [servedEx], averageWaitTime_eq_rounded_mean servedEx
    (by norm_num [servedEx])⟩

/-- Claim C10 (confirmed).  Whenever any barber is sleeping at the moment a
customer is added — even with a non-empty waiting queue — the new customer
bypasses the queue entirely: the queue is left unchanged (so every already
waiting customer keeps waiting) and the newcomer goes straight in service
with zero wait.  Such states are reachable: a barber-count increase adds
sleeping barbers without pulling customers from the queue (see the witness,
whose state is built by the engine's own operations). -/
theorem addCustomerWithName_bypasses_queue (numChairs : Nat) (serviceTime : ℚ)
    (nm : String) (s : SalonState)
    (hs : ∃ b ∈ s.barbers, b.state = BarberState.sleeping)
    (_hq : s.waitingCustomers ≠ []) :
    bypassSpec numChairs serviceTime nm s := by
  obtain ⟨i, hfind⟩ := findSleepingIdx_isSome_of _ hs
  unfold bypassSpec addCustomerWithName addCustomerStep
  rw [hfind]
  exact ⟨rfl, _, rfl, rfl, rfl, rfl, rfl⟩

/-- Witness for claim C10 at the engine-built state `sW10` (barber 2 added by
a count increase while customer 2 waits in the queue). -/
theorem addCustomerWithName_bypasses_queue_witness :
    ((∃ b ∈ sW10.barbers, b.state = BarberState.sleeping) ∧
      sW10.waitingCustomers ≠ []) ∧
    bypassSpec 3 10 "C" sW10 :=
  ⟨⟨by decide, by decide⟩,
    addCustomerWithName_bypasses_queue 3 10 "C" sW10 (by decide) (by decide)⟩
